import Mathlib

/-!
Verification development for the resume-backend repository.

The Python source under `app/` is shallowly embedded: pure functions become
Lean functions over `List Char` / `String`, floats used by the confidence
scoring become exact rationals (all constants are decimal literals and the
verdicts do not depend on rounding), the provider manager's exceptions
become an `Except` error type, and the LLM network calls become a pure
oracle carried inside the provider structures.
-/

/- ## Python string primitives (ASCII-focused, matching the data this app handles) -/

/-- Python whitespace class: the characters matched by `str.strip()`, `str.split()`
and the regex class backslash-s for ASCII text. -/
def isPySpace (c : Char) : Bool :=
  c == ' ' || c == '\t' || c == '\n' || c == '\r' || c == '\x0b' || c == '\x0c'

/-- Python `str.lower()` (ASCII). -/
def pyLower (s : List Char) : List Char := s.map Char.toLower

/-- Python `str.strip()`. -/
def pyStrip (s : List Char) : List Char :=
  ((s.dropWhile isPySpace).reverse.dropWhile isPySpace).reverse

/-- Python `str.strip(chars)` with an explicit character set. -/
def pyStripChars (cs : List Char) (s : List Char) : List Char :=
  ((s.dropWhile (fun c => cs.contains c)).reverse.dropWhile (fun c => cs.contains c)).reverse

/-- Python `str.isspace()`: nonempty and all whitespace. -/
def pyIsSpace (s : List Char) : Bool := !s.isEmpty && s.all isPySpace

/-- `startsWithChars p s`: `s` starts with the character sequence `p`
(Python `str.startswith`). -/
def startsWithChars : List Char → List Char → Bool
  | [], _ => true
  | _ :: _, [] => false
  | p :: ps, c :: cs => p == c && startsWithChars ps cs

/-- Python `str.endswith`. -/
def endsWithChars (p s : List Char) : Bool := startsWithChars p.reverse s.reverse

/-- `containsChar c s`: `c` occurs in `s`. -/
def containsChar (c : Char) : List Char → Bool
  | [] => false
  | x :: xs => x == c || containsChar c xs

/-- Python `sub in s` substring test. -/
def containsSub (p : List Char) : List Char → Bool
  | [] => startsWithChars p []
  | c :: cs => startsWithChars p (c :: cs) || containsSub p cs

/-- `s.startswith(tuple)`: any of the given prefixes. -/
def startsAnyOf (ps : List String) (s : List Char) : Bool :=
  ps.any (fun p => startsWithChars p.toList s)

/-- any of the given strings occurs as a substring. -/
def containsAnySub (ps : List String) (s : List Char) : Bool :=
  ps.any (fun p => containsSub p.toList s)

/-- Word character of the regex class backslash-w for ASCII text. -/
def isWordChar (c : Char) : Bool := c.isAlpha || c.isDigit || c == '_'

/-- Word-ness of an optional character; out-of-string counts as non-word. -/
def optWord : Option Char → Bool
  | none => false
  | some c => isWordChar c

/-- Regex word boundary between two (optional) adjacent characters. -/
def boundaryAt (prev next : Option Char) : Bool := optWord prev != optWord next

/-- The word `w` occurs at the head of `s` with word boundaries on both sides;
`prev` is the character just before `s` in the scanned text. -/
def wordHere (w : List Char) (prev : Option Char) (s : List Char) : Bool :=
  startsWithChars w s && boundaryAt prev s.head? &&
    boundaryAt w.getLast? (s.drop w.length).head?

def containsWordAux (w : List Char) (prev : Option Char) : List Char → Bool
  | [] => wordHere w prev []
  | c :: rest => wordHere w prev (c :: rest) || containsWordAux w (some c) rest

/-- The regex `\b w \b` matches somewhere in `s`. -/
def containsWord (w : List Char) (s : List Char) : Bool := containsWordAux w none s

/-- Alternation of whole words: `\b(w1|...|wn)\b` matches somewhere in `s`. -/
def containsWordAny (ws : List String) (s : List Char) : Bool :=
  ws.any (fun w => containsWord w.toList s)

/-- Python `str.split()` (split on runs of whitespace, dropping empties). -/
def splitPyWsAux : List Char → List Char → List String
  | [], acc => if acc.isEmpty then [] else [String.mk acc.reverse]
  | c :: rest, acc =>
    if isPySpace c then
      if acc.isEmpty then splitPyWsAux rest []
      else String.mk acc.reverse :: splitPyWsAux rest []
    else splitPyWsAux rest (c :: acc)

def splitPyWs (s : List Char) : List String := splitPyWsAux s []

/-- Python `str.title()` for ASCII: first alphabetic character of each
alphabetic run is uppercased, the rest lowercased. -/
def pyTitleAux : Bool → List Char → List Char
  | _, [] => []
  | prevAlpha, c :: rest =>
    if c.isAlpha then
      (if prevAlpha then c.toLower else c.toUpper) :: pyTitleAux true rest
    else c :: pyTitleAux false rest

def pyTitleS (s : String) : String := String.mk (pyTitleAux false s.toList)

def pyStripS (s : String) : String := String.mk (pyStrip s.toList)

def pyLowerS (s : String) : String := String.mk (pyLower s.toList)

/-- Lexicographic (code-point) comparison on character lists, as used by
Python when comparing strings inside sort keys. -/
def lexLeChars : List Char → List Char → Bool
  | [], _ => true
  | _ :: _, [] => false
  | a :: as, b :: bs => if a == b then lexLeChars as bs else decide (a < b)

/-- Stable insertion into a sorted list (earlier elements stay first among
equals), modelling Python's stable `sorted`. -/
def insertByLe (le : α → α → Bool) (x : α) : List α → List α
  | [] => [x]
  | y :: ys => if le x y then x :: y :: ys else y :: insertByLe le x ys

/-- Stable sort by a boolean total preorder, modelling Python `sorted(key=...)`. -/
def sortByLe (le : α → α → Bool) : List α → List α
  | [] => []
  | x :: xs => insertByLe le x (sortByLe le xs)

/-- Deduplicate keeping the first occurrence of each element. -/
def dedupKeepFirst (seen : List String) : List String → List String
  | [] => []
  | x :: xs =>
    if seen.contains x then dedupKeepFirst seen xs
    else x :: dedupKeepFirst (x :: seen) xs

/- ## Message classifier (`app/services/ai_service.py`, class MessageClassifier) -/

/-- `MessageType` enum from `app/models/schemas.py`. -/
inductive MessageType where
  | question
  | search_request
  | statement
  | command
  | conversation
deriving DecidableEq, Repr

/-- regex `^(what|who|when|where|why|how|which|whose|whom)\s` -/
def qPatInterrogative (s : List Char) : Bool :=
  ["what", "who", "when", "where", "why", "how", "which", "whose", "whom"].any
    (fun w => startsWithChars w.toList s &&
      (match (s.drop w.toList.length).head? with
        | some c => isPySpace c
        | none => false))

/-- regex `\?$` (the anchor also matches just before a final newline). -/
def qPatTrailingQm (s : List Char) : Bool :=
  endsWithChars ['?'] s || endsWithChars ['?', '\n'] s

/-- regex `^(tell me|explain|describe|can you|could you)` -/
def qPatLeadingPhrase (s : List Char) : Bool :=
  startsAnyOf ["tell me", "explain", "describe", "can you", "could you"] s

/-- regex `^(is|are|was|were|do|does|did|can|could|should|would|will)\s.*\?`
(the dot does not cross a newline). -/
def qPatAuxQm (s : List Char) : Bool :=
  ["is", "are", "was", "were", "do", "does", "did", "can", "could", "should",
   "would", "will"].any
    (fun w => startsWithChars w.toList s &&
      (match (s.drop w.toList.length).head? with
        | some c => isPySpace c
        | none => false) &&
      containsChar '?'
        ((s.drop (w.toList.length + 1)).takeWhile (fun c => c != '\n')))

/-- regex `^(find|search|get|show).*\?` -/
def qPatVerbQm (s : List Char) : Bool :=
  ["find", "search", "get", "show"].any
    (fun w => startsWithChars w.toList s &&
      containsChar '?' ((s.drop w.toList.length).takeWhile (fun c => c != '\n')))

/-- The five question patterns of `_determine_message_type`, checked in order;
a boolean disjunction since the loop returns on the first match. -/
def question_patterns_match (s : List Char) : Bool :=
  qPatInterrogative s || qPatTrailingQm s || qPatLeadingPhrase s ||
    qPatAuxQm s || qPatVerbQm s

/-- regex `^(find|search|look for|get|show me|list|display)` -/
def sPatLeadingVerb (s : List Char) : Bool :=
  startsAnyOf ["find", "search", "look for", "get", "show me", "list", "display"] s

/-- regex `^(filter|sort).*(by|with)` (the dot does not cross a newline). -/
def sPatFilterSort (s : List Char) : Bool :=
  ["filter", "sort"].any
    (fun w => startsWithChars w.toList s &&
      (["by", "with"].any (fun t =>
        containsSub t.toList
          ((s.drop w.toList.length).takeWhile (fun c => c != '\n')))))

/-- regex `^(containing|related to|about|with skill)` -/
def sPatLeadingRel (s : List Char) : Bool :=
  startsAnyOf ["containing", "related to", "about", "with skill"] s

/-- The domain nouns of the search pattern group. -/
def domainNouns : List String :=
  ["project", "experience", "certificate", "skill", "technology"]

/-- regex `\b(project|experience|certificate|skill|technology)\b` -/
def sPatDomainNoun (s : List Char) : Bool :=
  containsWordAny domainNouns s

/-- The four search patterns of `_determine_message_type`. -/
def search_patterns_match (s : List Char) : Bool :=
  sPatLeadingVerb s || sPatFilterSort s || sPatLeadingRel s || sPatDomainNoun s

/-- The imperative verbs of the three command patterns
`^(update|change|modify|edit|delete|remove|add|create)`,
`^(set|configure|enable|disable)`, `^(start|stop|restart|run|execute)`. -/
def commandVerbs : List String :=
  ["update", "change", "modify", "edit", "delete", "remove", "add", "create",
   "set", "configure", "enable", "disable", "start", "stop", "restart", "run",
   "execute"]

/-- The three command patterns of `_determine_message_type`. -/
def command_patterns_match (s : List Char) : Bool :=
  startsAnyOf ["update", "change", "modify", "edit", "delete", "remove", "add",
    "create"] s ||
  startsAnyOf ["set", "configure", "enable", "disable"] s ||
  startsAnyOf ["start", "stop", "restart", "run", "execute"] s

/-- `MessageClassifier._determine_message_type`: the pattern groups are
checked in order question → search → command; first matching group wins. The
input is the already lowercased and stripped message, and every pattern is
compiled with IGNORECASE, so matching is case-sensitive on lowercase text. -/
def determine_message_type (message : List Char) : MessageType :=
  if question_patterns_match message then .question
  else if search_patterns_match message then .search_request
  else if command_patterns_match message then .command
  else .conversation

/-- `MessageClassifier._determine_intent`. -/
def determine_intent (message : List Char) (message_type : MessageType) : String :=
  match message_type with
  | .question =>
    if containsAnySub ["project", "work", "portfolio", "application"] message then
      "project_inquiry"
    else if containsAnySub ["experience", "job", "work", "career"] message then
      "experience_inquiry"
    else if containsAnySub ["certificate", "certification", "course"] message then
      "certificate_inquiry"
    else if containsAnySub ["skill", "technology", "language", "framework"] message then
      "skill_inquiry"
    else if containsAnySub ["contact", "email", "phone", "reach"] message then
      "contact_inquiry"
    else "general_inquiry"
  | .search_request =>
    if containsSub "project".toList message then "search_projects"
    else if containsAnySub ["experience", "job"] message then "search_experience"
    else if containsSub "certificate".toList message then "search_certificates"
    else if containsSub "skill".toList message then "search_skills"
    else "general_search"
  | .command => "system_command"
  | _ => "general_conversation"

/-- The `portfolio_keywords` vocabulary of `_extract_keywords`. -/
def portfolio_keywords : List String :=
  ["project", "projects", "experience", "job", "work", "certificate",
   "certificates", "skill", "skills", "education", "contact", "email",
   "phone", "github", "linkedin", "website", "portfolio", "resume",
   "technology", "framework", "language", "tool", "database", "api",
   "web", "mobile", "data", "science", "machine", "learning", "ai",
   "artificial", "intelligence", "deep", "neural", "network"]

/-- The `technologies` vocabulary of `_extract_keywords`. -/
def keyword_technologies : List String :=
  ["python", "javascript", "typescript", "react", "vue", "angular",
   "node", "express", "fastapi", "django", "flask", "postgresql",
   "mysql", "mongodb", "redis", "docker", "kubernetes", "aws",
   "gcp", "azure", "tensorflow", "pytorch", "scikit", "pandas",
   "numpy", "matplotlib", "seaborn", "plotly"]

/-- `MessageClassifier._extract_keywords`: substring match of both fixed
vocabularies against the lowercased message, then deduplicated. The source's
`list(set(keywords))` order is a process-fixed function of the elements; we
keep first-occurrence order, which is deterministic in the same way. -/
def extract_keywords (message : List Char) : List String :=
  let message_lower := pyLower message
  let ks := portfolio_keywords.filter (fun k => containsSub k.toList message_lower)
  let ts := keyword_technologies.filter (fun t => containsSub t.toList message_lower)
  dedupKeepFirst [] (ks ++ ts)

/-- The `technologies` vocabulary of `_extract_entities` (a subset list). -/
def entity_technologies : List String :=
  ["python", "javascript", "react", "node", "fastapi", "django",
   "postgresql", "mongodb", "docker", "kubernetes", "aws", "gcp",
   "tensorflow", "pytorch", "scikit", "pandas", "numpy"]

/-- Entities dictionary of `_extract_entities`: each key is present only when
its list is nonempty. -/
structure EntitiesM where
  technologies : Option (List String)
  years : Option (List String)
  emails : Option (List String)
deriving DecidableEq, Repr

/-- One scan step of `re.findall(r'\b(19|20)\d{2}\b', message)`: try to match
at the head (returning the captured two-character group) — note the capture
group makes `findall` return only the `19`/`20` prefixes, not whole years. -/
def yearHere (prev : Option Char) (s : List Char) : Option (List Char) :=
  match s with
  | c1 :: c2 :: c3 :: c4 :: rest =>
    if boundaryAt prev (some c1) &&
        ((c1 == '1' && c2 == '9') || (c1 == '2' && c2 == '0')) &&
        c3.isDigit && c4.isDigit &&
        boundaryAt (some c4) rest.head? then
      some [c1, c2]
    else none
  | _ => none

/-- Left-to-right non-overlapping scan of `findall` for the year pattern;
fuel bounds the scan at one step per character. -/
def findYearsAux : Nat → Option Char → List Char → List (List Char)
  | 0, _, _ => []
  | _ + 1, _, [] => []
  | fuel + 1, prev, c :: rest =>
    match yearHere prev (c :: rest) with
    | some g =>
      g :: findYearsAux fuel ((c :: rest).get? 3) ((c :: rest).drop 4)
    | none => findYearsAux fuel (some c) rest

def findYears (s : List Char) : List String :=
  (findYearsAux (s.length + 1) none s).map String.mk

/-- Character classes of the email regex
`\b[A-Za-z0-9._%+-]+@[A-Za-z0-9.-]+\.[A-Z|a-z]{2,}\b`. -/
def inEmailLocal (c : Char) : Bool :=
  c.isAlpha || c.isDigit || c == '.' || c == '_' || c == '%' || c == '+' || c == '-'

def inEmailDomain (c : Char) : Bool :=
  c.isAlpha || c.isDigit || c == '.' || c == '-'

/-- The class `[A-Z|a-z]` of the email regex (it literally includes `|`). -/
def inEmailTld (c : Char) : Bool := c.isAlpha || c == '|'

/-- Greedy-with-backtracking choice of the TLD length: try `cmax` letters
down to 2, requiring a word boundary after the match. -/
def pickTldLen (s3 : List Char) : Nat → Option Nat
  | 0 => none
  | 1 => none
  | c + 2 =>
    if boundaryAt (s3.get? (c + 1)) (s3.get? (c + 2)) then some (c + 2)
    else pickTldLen s3 (c + 1)

/-- Greedy-with-backtracking choice of the domain-part length `n ≥ 1`
(requiring a literal dot right after it), then of the TLD length. -/
def pickDomainLen (s2 : List Char) : Nat → Option (Nat × Nat)
  | 0 => none
  | n + 1 =>
    match (if s2.get? (n + 1) == some '.' then
        pickTldLen (s2.drop (n + 2)) ((s2.drop (n + 2)).takeWhile inEmailTld).length
      else none) with
    | some c => some (n + 1, c)
    | none => pickDomainLen s2 n

/-- Try to match the email regex at the head of `s` (`prev` is the character
just before); returns the length of the match. The local part takes its
maximal run (no backtracking is possible since `@` is outside its class). -/
def emailHere (prev : Option Char) (s : List Char) : Option Nat :=
  let a := (s.takeWhile inEmailLocal).length
  if a == 0 then none
  else if !boundaryAt prev s.head? then none
  else
    match s.get? a with
    | some '@' =>
      let s2 := s.drop (a + 1)
      match pickDomainLen s2 (s2.takeWhile inEmailDomain).length with
      | some (b, c) => some (a + 1 + b + 1 + c)
      | none => none
    | _ => none

/-- Left-to-right non-overlapping `findall` scan for the email regex. -/
def findEmailsAux : Nat → Option Char → List Char → List (List Char)
  | 0, _, _ => []
  | _ + 1, _, [] => []
  | fuel + 1, prev, c :: rest =>
    match emailHere prev (c :: rest) with
    | some n =>
      (c :: rest).take n ::
        findEmailsAux fuel ((c :: rest).get? (n - 1)) ((c :: rest).drop n)
    | none => findEmailsAux fuel (some c) rest

def findEmails (s : List Char) : List String :=
  (findEmailsAux (s.length + 1) none s).map String.mk

/-- `MessageClassifier._extract_entities` (the `keywords` argument is unused
in the source as well). -/
def extract_entities (message : List Char) (keywords : List String) : EntitiesM :=
  let _ := keywords
  let found_tech := entity_technologies.filter
    (fun t => containsSub (pyLower t.toList) (pyLower message))
  let years := findYears message
  let emails := findEmails message
  { technologies := if found_tech.isEmpty then none else some found_tech
    years := if years.isEmpty then none else some years
    emails := if emails.isEmpty then none else some emails }

/-- `MessageClassifier._calculate_confidence`, with the float arithmetic
carried out exactly in ℚ (every constant is an exact decimal and the
comparisons in the claims are not sensitive to double rounding). The
`message_type` argument is unused in the source as well. -/
def calculate_confidence (message : List Char) (message_type : MessageType)
    (keywords : List String) : ℚ :=
  let _ := message_type
  let confidence : ℚ := 0.5
  let confidence := if endsWithChars ['?'] message then confidence + 0.3 else confidence
  let confidence :=
    if startsAnyOf ["what", "who", "when", "where", "why", "how"] message then
      confidence + 0.2
    else confidence
  let confidence :=
    if containsAnySub ["find", "search", "get", "show", "list"] (pyLower message) then
      confidence + 0.2
    else confidence
  let confidence :=
    if !keywords.isEmpty then
      confidence + min ((keywords.length : ℚ) * 0.1) 0.3
    else confidence
  let confidence :=
    if containsAnySub ["what", "who", "when", "where", "why", "how", "which",
        "whose", "whom"] (pyLower message) then
      confidence + 0.2
    else confidence
  min confidence 1.0

/-- `MessageClassification` from `app/models/schemas.py` (times in ℚ). -/
structure MessageClassification where
  message_type : MessageType
  confidence : ℚ
  keywords : List String
  intent : String
  entities : EntitiesM
  processing_time : ℚ
deriving DecidableEq, Repr

/-- `MessageClassifier.classify_message`. The wall-clock reads
(`time.time()` at entry and exit) are passed in as explicit inputs so that
the dependence of the output on time is visible in the embedding. -/
def classify_message (message : String) (start_time end_time : ℚ) :
    MessageClassification :=
  let message_lower := pyStrip (pyLower message.toList)
  let keywords := extract_keywords message.toList
  let message_type := determine_message_type message_lower
  let intent := determine_intent message_lower message_type
  let entities := extract_entities message.toList keywords
  let confidence := calculate_confidence message_lower message_type keywords
  { message_type := message_type
    confidence := confidence
    keywords := keywords
    intent := intent
    entities := entities
    processing_time := end_time - start_time }

/- ## Provider manager (`app/services/providers/manager.py`) -/

/-- `LLMProvider` enum from `app/models/schemas.py` (`local` is a Lean
keyword, hence `localProv`). -/
inductive LLMProviderT where
  | groq
  | openai
  | anthropic
  | localProv
deriving DecidableEq, Repr

/-- `LLMResponse` as far as the manager logic observes it. -/
structure LLMResponseM where
  response : String
  provider : LLMProviderT
deriving DecidableEq, Repr

/-- One provider adapter as the manager sees it: `is_available()` and the
`generate_response` network call, the latter modelled as a pure oracle from
the prompt to either a response or the raised exception's message. -/
structure ProviderSim where
  avail : Bool
  gen : String → Except String LLMResponseM

/-- The two exceptions `generate_response` can raise:
`Exception("No available LLM providers")` and
`Exception("All LLM providers failed. Last error: ...")`. -/
inductive ManagerError where
  | noProvidersAvailable
  | allProvidersFailed (last_error : Option String)
deriving DecidableEq, Repr

/-- `self.provider_priority` fixed in `LLMProviderManager.__init__`. -/
def provider_priority : List LLMProviderT :=
  [.groq, .openai, .anthropic]

/-- `LLMProviderManager` state: the `providers` dict. -/
structure LLMProviderManager where
  providers : LLMProviderT → Option ProviderSim

/-- Candidate construction of `generate_response`: the preferred provider
first (if registered and available), then the priority order, skipping
duplicates, unregistered and unavailable providers. -/
def providers_to_try (m : LLMProviderManager) (preferred : Option LLMProviderT) :
    List LLMProviderT :=
  let initial : List LLMProviderT :=
    match preferred with
    | some p =>
      match m.providers p with
      | some prov => if prov.avail then [p] else []
      | none => []
    | none => []
  provider_priority.foldl
    (fun acc pt =>
      if pt ∈ acc then acc
      else
        match m.providers pt with
        | some prov => if prov.avail then acc ++ [pt] else acc
        | none => acc)
    initial

/-- The fallback loop of `generate_response`: try candidates strictly in
order, return the first success, record each failure in `last_error`.
Candidates are registered by construction, so the `none` lookup branch is
unreachable and skips. -/
def try_providers (m : LLMProviderManager) (prompt : String) :
    List LLMProviderT → Option String → Except ManagerError LLMResponseM
  | [], last_error => .error (.allProvidersFailed last_error)
  | pt :: rest, last_error =>
    match m.providers pt with
    | none => try_providers m prompt rest last_error
    | some prov =>
      match prov.gen prompt with
      | .ok response => .ok response
      | .error e => try_providers m prompt rest (some e)

/-- `LLMProviderManager.generate_response`. -/
def generate_response (m : LLMProviderManager) (prompt : String)
    (preferred_provider : Option LLMProviderT) : Except ManagerError LLMResponseM :=
  let pts := providers_to_try m preferred_provider
  if pts.isEmpty then .error .noProvidersAvailable
  else try_providers m prompt pts none

/- ## Agent validation phase (`LLMAgent._phase_validation`) -/

/-- The dictionary `_phase_validation` returns. -/
structure ValidationOut where
  validated_response : String
  llm_response : LLMResponseM
  is_valid : Bool
deriving DecidableEq, Repr

/-- The generic fallback prompt of the validation phase. -/
def validation_fallback_prompt : String :=
  "Please provide a helpful response about the portfolio."

/-- `LLMAgent._phase_validation`. Besides the phase output (or the manager
exception propagating out of the single regeneration call), the embedding
returns the list of prompts sent to the provider manager during the phase,
so that the number of manager invocations is part of the observable
behaviour. -/
def phase_validation (m : LLMProviderManager) (response : String)
    (llm_response : LLMResponseM) :
    Except ManagerError ValidationOut × List String :=
  let is_valid :=
    decide (10 < (pyStrip response.toList).length) && !(pyIsSpace response.toList)
  if is_valid then
    (.ok ⟨response, llm_response, is_valid⟩, [])
  else
    match generate_response m validation_fallback_prompt none with
    | .ok r => (.ok ⟨r.response, r, is_valid⟩, [validation_fallback_prompt])
    | .error e => (.error e, [validation_fallback_prompt])

/- ## Data model (`app/models/schemas.py`), restricted to the fields the
embedded code paths read; remaining schema fields are never consulted by the
search orchestrator and are omitted. -/

structure ProjectData where
  name : String
  description : String
  shortDescription : Option String
  category : String
  featured : Bool
  skills : List String
deriving DecidableEq, Repr

structure JobData where
  title : String
  company : String
  description : String
  isCurrent : Bool
  skills : List String
deriving DecidableEq, Repr

structure CertificateData where
  name : String
  provider : String
  field : String
  skills : List String
deriving DecidableEq, Repr

structure IntroData where
  name : String
  title : String
  about : String
deriving DecidableEq, Repr

/-- The static JSON data the `DataService` loads (the external collaborator:
its loaders re-read immutable files, so one value per process run). -/
structure DataStore where
  intro : IntroData
  projects : List ProjectData
  newProjects : List ProjectData
  jobs : List JobData
  certificates : List CertificateData

/-- A record after `.dict()` conversion: the sections carry plain dicts, here
a tagged union of the three record kinds. -/
inductive RecordData where
  | proj (p : ProjectData)
  | job (j : JobData)
  | cert (c : CertificateData)
deriving DecidableEq, Repr

/-- dict lookup `item.get("name")`. -/
def RecordData.getName : RecordData → Option String
  | .proj p => some p.name
  | .cert c => some c.name
  | .job _ => none

/-- dict lookup `item.get("title")`. -/
def RecordData.getTitle : RecordData → Option String
  | .job j => some j.title
  | _ => none

/-- dict lookup `item.get("description")`. -/
def RecordData.getDescription : RecordData → Option String
  | .proj p => some p.description
  | .job j => some j.description
  | .cert _ => none

/-- dict lookup `item.get("shortDescription")` (a present key may hold None). -/
def RecordData.getShortDescription : RecordData → Option String
  | .proj p => p.shortDescription
  | _ => none

/-- dict lookup `item.get("company")`. -/
def RecordData.getCompany : RecordData → Option String
  | .job j => some j.company
  | _ => none

/-- dict lookup `item.get("provider")`. -/
def RecordData.getProvider : RecordData → Option String
  | .cert c => some c.provider
  | _ => none

/-- dict lookup `item.get("field")`. -/
def RecordData.getField : RecordData → Option String
  | .cert c => some c.field
  | _ => none

/-- dict lookup `item.get("skills", [])`. -/
def RecordData.getSkills : RecordData → List String
  | .proj p => p.skills
  | .job j => j.skills
  | .cert c => c.skills

/-- Python truthiness chain `x1 or x2 or ... or dflt` on optional strings. -/
def firstTruthy : List (Option String) → String → String
  | [], dflt => dflt
  | some s :: rest, dflt => if s = "" then firstTruthy rest dflt else s
  | none :: rest, dflt => firstTruthy rest dflt

/-- `SearchSection` (`highlights` field is never set by these code paths). -/
structure SearchSectionM where
  type : String
  items : List RecordData
  count : Nat
deriving DecidableEq, Repr

/-- `SearchResultItem`. -/
structure SearchResultItemM where
  type : String
  data : RecordData
deriving DecidableEq, Repr

/- ## Data service search (`app/services/data_service.py`) -/

/-- The searchable text of `DataService._search_projects`. -/
def project_searchable_text (p : ProjectData) : String :=
  p.name ++ " " ++ p.description ++ " " ++ (p.shortDescription.getD "") ++ " " ++
    String.intercalate " " p.skills ++ " " ++ p.category

/-- `DataService._search_projects`: case-insensitive substring filter with an
early exit at `limit` results (equal to filter-then-take). -/
def search_projects (query : String) (projects : List ProjectData) (limit : Nat) :
    List ProjectData :=
  (projects.filter (fun p =>
    containsSub (pyLower query.toList) (pyLower (project_searchable_text p).toList))).take limit

/-- The searchable text of `DataService._search_jobs`. -/
def job_searchable_text (j : JobData) : String :=
  j.title ++ " " ++ j.company ++ " " ++ j.description ++ " " ++
    String.intercalate " " j.skills

/-- `DataService._search_jobs`. -/
def search_jobs (query : String) (jobs : List JobData) (limit : Nat) : List JobData :=
  (jobs.filter (fun j =>
    containsSub (pyLower query.toList) (pyLower (job_searchable_text j).toList))).take limit

/-- The searchable text of `DataService._search_certificates`. -/
def cert_searchable_text (c : CertificateData) : String :=
  c.name ++ " " ++ c.provider ++ " " ++ c.field ++ " " ++
    String.intercalate " " c.skills

/-- `DataService._search_certificates`. -/
def search_certificates (query : String) (certificates : List CertificateData)
    (limit : Nat) : List CertificateData :=
  (certificates.filter (fun c =>
    containsSub (pyLower query.toList) (pyLower (cert_searchable_text c).toList))).take limit

/-- `UnifiedSearchResponse` as the search orchestrator observes it. -/
structure UnifiedSearchResponseM where
  sections : List SearchSectionM
  total_count : Nat
deriving DecidableEq, Repr

/-- The projects block of `unified_search`: the section appended when the
category is requested (empty or a singleton). -/
def unified_projects_sections (store : DataStore) (query : String) (limit : Nat) :
    List SearchSectionM :=
  let project_results := search_projects query store.projects limit
  if !project_results.isEmpty then
    [⟨"projects", project_results.map RecordData.proj, project_results.length⟩]
  else []

/-- The jobs block of `unified_search`. -/
def unified_jobs_sections (store : DataStore) (query : String) (limit : Nat) :
    List SearchSectionM :=
  let job_results := search_jobs query store.jobs limit
  if !job_results.isEmpty then
    [⟨"jobs", job_results.map RecordData.job, job_results.length⟩]
  else []

/-- The certificates block of `unified_search`. -/
def unified_certificates_sections (store : DataStore) (query : String)
    (limit : Nat) : List SearchSectionM :=
  let cert_results := search_certificates query store.certificates limit
  if !cert_results.isEmpty then
    [⟨"certificates", cert_results.map RecordData.cert, cert_results.length⟩]
  else []

/-- `DataService.unified_search`. The source appends the three per-category
sections to one list in sequence; the appends are independent, so the list
is the concatenation of the three conditional blocks. `semantic_search`
always passes the request's `include_sections` list (never None), so the
None-default branch of the source is not taken. -/
def unified_search (store : DataStore) (query : String)
    (include_sections : List String) (limit : Nat) : UnifiedSearchResponseM :=
  let sections :=
    (if "projects" ∈ include_sections then
      unified_projects_sections store query limit
    else []) ++
    (if "jobs" ∈ include_sections then
      unified_jobs_sections store query limit
    else []) ++
    (if "certificates" ∈ include_sections then
      unified_certificates_sections store query limit
    else [])
  ⟨sections, (sections.map (fun s => s.count)).sum⟩

/- ## Search orchestrator (`EnhancedAIService` in `app/services/ai_service.py`) -/

/-- The Python sort key `(not project.featured, project.name.lower())` of the
fallback/global project ordering, as a boolean total preorder
(`False < True`, strings by code point). -/
def projFallbackLe (p q : ProjectData) : Bool :=
  let b1 := !p.featured
  let b2 := !q.featured
  if b1 == b2 then lexLeChars (pyLower p.name.toList) (pyLower q.name.toList)
  else b1 == false

/-- `EnhancedAIService._flatten_sections_to_items` (skipping a section with
empty `items` is a no-op under concatenation). -/
def flatten_sections_to_items (sections : List SearchSectionM) :
    List SearchResultItemM :=
  sections.foldl
    (fun flattened sec =>
      flattened ++ sec.items.map (fun item => ⟨sec.type, item⟩))
    []

/-- The projects block of `_build_fallback_sections`: featured-first,
name-ordered projects (new projects preferred), capped at the per-section
limit; empty or a singleton section. -/
def fallback_projects_sections (store : DataStore) (per_section_limit : Nat) :
    List SearchSectionM :=
  let projects :=
    if store.newProjects.isEmpty then store.projects else store.newProjects
  let projects_sorted :=
    if projects.isEmpty then [] else sortByLe projFallbackLe projects
  let project_items := (projects_sorted.take per_section_limit).map RecordData.proj
  if !project_items.isEmpty then
    [⟨"projects", project_items, project_items.length⟩]
  else []

/-- The jobs block of `_build_fallback_sections`: current jobs first. -/
def fallback_jobs_sections (store : DataStore) (per_section_limit : Nat) :
    List SearchSectionM :=
  let jobs := store.jobs
  if !jobs.isEmpty then
    let current_jobs := jobs.filter (fun job => job.isCurrent)
    let past_jobs := jobs.filter (fun job => !job.isCurrent)
    let jobs_sequence := current_jobs ++ past_jobs
    let job_items := (jobs_sequence.take per_section_limit).map RecordData.job
    if !job_items.isEmpty then [⟨"jobs", job_items, job_items.length⟩]
    else []
  else []

/-- The certificates block of `_build_fallback_sections`: first N
certificates. -/
def fallback_certificates_sections (store : DataStore) (per_section_limit : Nat) :
    List SearchSectionM :=
  let certificate_items :=
    (store.certificates.take per_section_limit).map RecordData.cert
  if !certificate_items.isEmpty then
    [⟨"certificates", certificate_items, certificate_items.length⟩]
  else []

/-- `EnhancedAIService._build_fallback_sections`. The source appends the
three per-category blocks to one list in sequence; the appends are
independent, so the list is the concatenation of the three conditional
blocks. The try/except blocks only guard data-file loading, which the
`DataStore` argument models as already loaded, so no exception branch
arises. -/
def build_fallback_sections (store : DataStore) (include_sections : List String)
    (per_section_limit : Nat) : List SearchSectionM :=
  let include_sections :=
    if include_sections.isEmpty then ["projects", "jobs", "certificates"]
    else include_sections
  let per_section_limit := max 1 per_section_limit
  (if "projects" ∈ include_sections then
    fallback_projects_sections store per_section_limit
  else []) ++
  (if "jobs" ∈ include_sections then
    fallback_jobs_sections store per_section_limit
  else []) ++
  (if "certificates" ∈ include_sections then
    fallback_certificates_sections store per_section_limit
  else [])

/-- The dict comprehension `{section: idx for idx, section in
enumerate(priority_order)}`: a duplicated section keeps its last index. -/
def priority_index_of (priority_order : List String) (t : String) : Option Nat :=
  (priority_order.foldl
    (fun (acc : Option Nat × Nat) s =>
      (if s == t then some acc.2 else acc.1, acc.2 + 1))
    (none, 0)).1

/-- The section sort key `priority_index.get(section.type, len(priority_order))`. -/
def section_sort_key (priority_order : List String) (sec : SearchSectionM) : Nat :=
  (priority_index_of priority_order sec.type).getD priority_order.length

/-- The navigation intents set of `_is_navigation_query`. -/
def nav_intents : List String :=
  ["search_projects", "search_experience", "search_certificates",
   "search_skills", "general_search"]

/-- The section terms set of `_is_navigation_query`. -/
def section_terms : List String :=
  ["project", "projects", "experience", "job", "jobs",
   "certificate", "certificates", "skill", "skills", "contact", "about"]

/-- `EnhancedAIService._is_navigation_query`. -/
def is_navigation_query (query : String) (classification : MessageClassification) :
    Bool :=
  if classification.message_type == .search_request then true
  else if nav_intents.contains classification.intent then true
  else
    let lowered := pyStrip (pyLower query.toList)
    if classification.message_type == .command &&
        containsAnySub ["show", "open", "go to", "goto", "take me", "view", "list"]
          lowered then true
    else if startsAnyOf ["show ", "open ", "view ", "list ", "see ", "go to ",
        "goto "] lowered then true
    else
      let tokens := splitPyWs lowered
      if 0 < tokens.length && tokens.length ≤ 3 &&
          tokens.any (fun term => section_terms.contains term) then true
      else false

/-- The insertion-ordered highlights dict of `_extract_section_context`. -/
abbrev Highlights := List (String × List String)

/-- `highlights.setdefault(k, [])`. -/
def hlSetdefault (hs : Highlights) (k : String) : Highlights :=
  if hs.any (fun kv => kv.1 == k) then hs else hs ++ [(k, [])]

/-- `highlights[k].append(v)`. -/
def hlAppend (hs : Highlights) (k : String) (v : String) : Highlights :=
  hs.map (fun kv => if kv.1 == k then (kv.1, kv.2 ++ [v]) else kv)

/-- `highlights.get(k, [])`. -/
def hlGet (hs : Highlights) (k : String) : List String :=
  match hs.find? (fun kv => kv.1 == k) with
  | some kv => kv.2
  | none => []

/-- One loop body of `_extract_section_context`: the context line appended
for `item` under section type `label`, and the highlight entry (if any). -/
def section_item_line (label : String) (item : RecordData) :
    String × Option String :=
  if label == "projects" then
    let name := firstTruthy [item.getName, item.getTitle] "Unnamed project"
    let description := firstTruthy [item.getShortDescription, item.getDescription] ""
    let skills := String.intercalate ", " (item.getSkills.take 6)
    (pyStripS ("Project — " ++ name ++ ": " ++ description ++ ". Skills: " ++ skills),
     if name ≠ "" then some name else none)
  else if label == "jobs" then
    let title := firstTruthy [item.getTitle] "Role"
    let company := firstTruthy [item.getCompany] ""
    let summary := item.getDescription.getD ""
    let skills := String.intercalate ", " (item.getSkills.take 6)
    let display :=
      if company ≠ "" then
        String.mk (pyStripChars [' ', '·'] (title ++ " · " ++ company).toList)
      else title
    (pyStripS ("Experience — " ++ title ++ " at " ++ company ++ ": " ++ summary ++
        ". Skills: " ++ skills),
     if title ≠ "" then some display else none)
  else if label == "certificates" then
    let name := firstTruthy [item.getName] "Certificate"
    let provider := firstTruthy [item.getProvider] ""
    let field := firstTruthy [item.getField] ""
    (pyStripS ("Certificate — " ++ name ++ " from " ++ provider ++ " in " ++
        field ++ "."),
     if name ≠ "" then some name else none)
  else
    let name := firstTruthy [item.getName, item.getTitle] "Record"
    (pyTitleS label ++ " — " ++ name ++ ".",
     if name ≠ "" then some name else none)

/-- `EnhancedAIService._extract_section_context`: context lines plus the
per-type highlight lists, each deduplicated in order at the end
(`list(dict.fromkeys(values))`). -/
def extract_section_context (sections : List SearchSectionM)
    (per_section_limit : Nat) : List String × Highlights :=
  let res := sections.foldl
    (fun (acc : List String × Highlights) sec =>
      if sec.items.isEmpty then acc
      else
        let acc := (acc.1, hlSetdefault acc.2 sec.type)
        (sec.items.take per_section_limit).foldl
          (fun (acc : List String × Highlights) item =>
            let (line, hl) := section_item_line sec.type item
            (acc.1 ++ [line],
             match hl with
             | some h => hlAppend acc.2 sec.type h
             | none => acc.2))
          acc)
    ([], [])
  (res.1, res.2.map (fun kv => (kv.1, dedupKeepFirst [] kv.2)))

/-- `EnhancedAIService._compose_navigation_fallback`. -/
def compose_navigation_fallback (query : String) (highlights : Highlights) :
    String :=
  let project_names := hlGet highlights "projects"
  let job_names := hlGet highlights "jobs"
  let certificate_names := hlGet highlights "certificates"
  let summary_parts : List String := []
  let summary_parts :=
    if !project_names.isEmpty then
      summary_parts ++
        ["I have worked on projects such as " ++
          String.intercalate ", " (project_names.take 3) ++ " that showcase " ++
          (if query = "" then "these capabilities" else query) ++ "."]
    else summary_parts
  let summary_parts :=
    if !job_names.isEmpty then
      summary_parts ++
        ["My experience includes roles like " ++
          String.intercalate ", " (job_names.take 2) ++ " where I applied " ++
          (if query = "" then "these skills" else query) ++ " in practice."]
    else summary_parts
  let summary_parts :=
    if !certificate_names.isEmpty then
      summary_parts ++
        ["I have also earned certifications including " ++
          String.intercalate ", " (certificate_names.take 3) ++
          " that reinforce this expertise."]
    else summary_parts
  let summary_parts :=
    if summary_parts.isEmpty then
      if query ≠ "" then
        ["I could not find specific portfolio records for \x27" ++ query ++
          "\x27, but feel free to explore the sections below for more details."]
      else ["Here are the most relevant highlights from my portfolio."]
    else summary_parts
  String.intercalate " " summary_parts

/-- `EnhancedAIService._compose_information_fallback`. -/
def compose_information_fallback (query : String) (context_lines : List String) :
    String :=
  if !context_lines.isEmpty then
    let bullet_list :=
      String.intercalate "\n" ((context_lines.take 5).map (fun line => "• " ++ line))
    let intro :=
      if query ≠ "" then
        "Here’s a curated snapshot from my portfolio tailored to \"" ++ query ++ "\":"
      else "Here’s a curated snapshot from across my portfolio:"
    let outro :=
      "Browse the sections below to dive into the full write-ups and related work."
    intro ++ "\n\n" ++ bullet_list ++ "\n\n" ++ outro
  else if query ≠ "" then
    "I couldn’t assemble a richer AI summary for \"" ++ query ++
      "\" just yet. Try exploring the sections below or rephrasing your question for more context."
  else
    "I couldn’t assemble a richer AI summary right now. Feel free to browse the sections below or ask another question for more context."

/-- `EnhancedAIService._truncate_text`. -/
def truncate_text (text : String) (max_length : Nat) : String :=
  let sanitized := pyStripS text
  if sanitized.toList.length ≤ max_length then sanitized
  else
    let truncated := sanitized.toList.take max_length
    let kept :=
      if containsChar ' ' truncated then
        ((truncated.reverse.dropWhile (fun c => c != ' ')).drop 1).reverse
      else truncated
    String.mk kept ++ "…"

/-- `EnhancedAIService._build_global_context`. The try/except blocks guard
only the data loads, modelled as the already-loaded `DataStore`. -/
def build_global_context (store : DataStore) : List String :=
  let context_lines : List String := []
  let intro := store.intro
  let about_snippet := truncate_text intro.about 260
  let context_lines := context_lines ++
    ["Profile — " ++ intro.name ++ ", " ++ intro.title ++ ": " ++ about_snippet]
  let jobs := store.jobs
  let current_jobs := jobs.filter (fun job => job.isCurrent)
  let past_jobs := jobs.filter (fun job => !job.isCurrent)
  let jobs_sequence := current_jobs ++ past_jobs
  let context_lines := context_lines ++
    (jobs_sequence.take 3).map (fun job =>
      "Experience — " ++ job.title ++ " at " ++ job.company ++ ": " ++
        truncate_text job.description 200)
  let projects :=
    if store.newProjects.isEmpty then store.projects else store.newProjects
  let projects_sorted := sortByLe projFallbackLe projects
  let context_lines := context_lines ++
    (projects_sorted.take 3).map (fun project =>
      let description :=
        truncate_text (firstTruthy [project.shortDescription] project.description) 200
      let skills := String.intercalate ", " (project.skills.take 5)
      "Project — " ++ project.name ++ ": " ++ description ++ ". Skills: " ++ skills)
  let context_lines := context_lines ++
    (store.certificates.take 3).map (fun certificate =>
      "Certificate — " ++ certificate.name ++ " from " ++ certificate.provider ++
        " in " ++ certificate.field ++ ".")
  context_lines

/-- `SearchSummary` from `app/models/schemas.py`. -/
structure SearchSummaryM where
  title : String
  body : String
  highlights : Option Highlights
deriving DecidableEq, Repr

/-- `EnhancedAIService._build_navigation_summary`. `get_prompt` models
`PromptManager.get_prompt` applied to a key and the two formatted variables
(the templates live in an external YAML file loaded at startup); the
provider manager exception is caught, leaving `summary_text` unset. -/
def build_navigation_summary (m : LLMProviderManager)
    (get_prompt : String → String → String → String) (query : String)
    (sections : List SearchSectionM) : SearchSummaryM :=
  let ctx := extract_section_context sections 3
  let context_lines := ctx.1
  let highlights := ctx.2
  let context_blob :=
    String.mk ((String.intercalate "\n"
      (context_lines.filter (fun line => line ≠ ""))).toList.take 4000)
  let summary_text : Option String :=
    if context_blob ≠ "" then
      match generate_response m (get_prompt "search_summary" query context_blob)
          none with
      | .ok llm_summary => some (pyStripS llm_summary.response)
      | .error _ => none
    else none
  let filtered_highlights :=
    (highlights.filter (fun kv => !kv.2.isEmpty)).map
      (fun kv => (kv.1, kv.2.take 5))
  let summary_text :=
    match summary_text with
    | some s =>
      if s = "" then compose_navigation_fallback query filtered_highlights else s
    | none => compose_navigation_fallback query filtered_highlights
  let summary_text :=
    if summary_text = "" then
      "Explore the sections below to learn more about my work."
    else summary_text
  let title :=
    if query ≠ "" then pyTitleS query ++ " Highlights" else "Portfolio Highlights"
  { title := title
    body := summary_text
    highlights := if filtered_highlights.isEmpty then none else some filtered_highlights }

/-- `EnhancedAIService._build_information_answer`; the LLM failure or an
empty stripped answer falls back to the composed digest. -/
def build_information_answer (store : DataStore) (m : LLMProviderManager)
    (get_prompt : String → String → String → String) (query : String)
    (sections : List SearchSectionM) (include_global_profile : Bool) : String :=
  let context_lines := (extract_section_context sections 4).1
  let context_lines :=
    if include_global_profile then
      let global_context := build_global_context store
      if !global_context.isEmpty then
        dedupKeepFirst []
          ((global_context ++ context_lines).filter (fun line => line ≠ ""))
      else context_lines
    else context_lines
  let context_lines :=
    if context_lines.isEmpty then build_global_context store else context_lines
  let context_blob :=
    String.mk ((String.intercalate "\n"
      (context_lines.filter (fun line => line ≠ ""))).toList.take 4000)
  let context_blob :=
    if context_blob = "" then "No direct matches were found in the portfolio."
    else context_blob
  match generate_response m
      (get_prompt "search_information_answer" query context_blob) none with
  | .ok llm_response =>
    let answer := pyStripS llm_response.response
    if answer ≠ "" then answer else compose_information_fallback query context_lines
  | .error _ => compose_information_fallback query context_lines

/-- `SearchRequest` from `app/models/schemas.py`: the schema enforces
`limit ∈ (0, 100]` and `offset ≥ 0`; `include_sections` defaults to all
three sections and is never None. -/
structure SearchRequestM where
  query : String
  limit : Nat
  offset : Nat
  include_sections : List String
deriving DecidableEq, Repr

/-- `PaginationMeta` from `app/models/schemas.py`. -/
structure PaginationMetaM where
  total_count : Nat
  limit : Nat
  offset : Nat
  has_more : Bool
deriving DecidableEq, Repr

/-- `SearchResult` as built by `semantic_search` (`search_time` is the only
omitted field: it is the wall-clock latency). -/
structure SearchResultM where
  items : List SearchResultItemM
  total_count : Nat
  query : String
  search_type : String
  pagination : PaginationMetaM
  summary : Option SearchSummaryM
  sections : List SearchSectionM
  llm_response : Option String
  intent : String

/-- The priority comparison of `semantic_search`'s two `sorted` calls. -/
def section_priority_le (priority_order : List String) (a b : SearchSectionM) :
    Bool :=
  decide (section_sort_key priority_order a ≤ section_sort_key priority_order b)

/-- The section-selection prefix of `semantic_search`: the priority-ordered
unified-search sections, replaced by the ordered global fallback sections
when the flattened result is empty (and the fallback produced anything);
also returns the `fallback_used` flag. -/
def semantic_sections (store : DataStore) (request : SearchRequestM) :
    List SearchSectionM × Bool :=
  let unified_result :=
    unified_search store request.query request.include_sections request.limit
  let priority_order :=
    if request.include_sections.isEmpty then ["projects", "jobs", "certificates"]
    else request.include_sections
  let ordered_sections :=
    if unified_result.sections.isEmpty then []
    else sortByLe (section_priority_le priority_order) unified_result.sections
  let total_count := (flatten_sections_to_items ordered_sections).length
  if total_count = 0 then
    let per_section_limit := min 3 (max 1 request.limit)
    let fallback_sections :=
      build_fallback_sections store request.include_sections per_section_limit
    if !fallback_sections.isEmpty then
      let ordered_sections :=
        sortByLe (section_priority_le priority_order) fallback_sections
      (ordered_sections,
       decide (0 < (flatten_sections_to_items ordered_sections).length))
    else (ordered_sections, false)
  else (ordered_sections, false)

/-- `EnhancedAIService.semantic_search`. The wall-clock reads only feed
`search_time` and `processing_time`, so the classifier times are fixed at 0
here. -/
def semantic_search (store : DataStore) (m : LLMProviderManager)
    (get_prompt : String → String → String → String) (request : SearchRequestM) :
    SearchResultM :=
  let classification := classify_message request.query 0 0
  let secfb := semantic_sections store request
  let ordered_sections := secfb.1
  let fallback_used := secfb.2
  let aggregated_items := flatten_sections_to_items ordered_sections
  let total_count := aggregated_items.length
  let safe_offset := min request.offset total_count
  let end_index := min total_count (safe_offset + request.limit)
  let paginated_items :=
    (aggregated_items.drop safe_offset).take (end_index - safe_offset)
  let pagination : PaginationMetaM :=
    { total_count := total_count
      limit := request.limit
      offset := safe_offset
      has_more := decide (end_index < total_count) }
  let is_nav := is_navigation_query request.query classification
  let resolved_search_type := if is_nav then "navigation" else "information"
  let summary_payload :=
    if is_nav then
      some (build_navigation_summary m get_prompt request.query ordered_sections)
    else none
  let llm_response :=
    if is_nav then none
    else some (build_information_answer store m get_prompt request.query
      ordered_sections fallback_used)
  { items := paginated_items
    total_count := total_count
    query := request.query
    search_type := resolved_search_type
    pagination := pagination
    summary := summary_payload
    sections := ordered_sections
    llm_response := llm_response
    intent := classification.intent }

/- ## Auxiliary predicates and concrete instances used by the theorems -/

/-- The interrogative words of the first question pattern. -/
def interrogative_words : List String :=
  ["what", "who", "when", "where", "why", "how", "which", "whose", "whom"]

/-- `p in self.providers and self.providers[p].is_available()`. -/
def isAvailableIn (m : LLMProviderManager) (p : LLMProviderT) : Bool :=
  match m.providers p with
  | some prov => prov.avail
  | none => false

/-- The initial candidate segment of `generate_response`: the preferred
provider alone, when registered and available. -/
def preferred_candidates (m : LLMProviderManager)
    (preferred : Option LLMProviderT) : List LLMProviderT :=
  match preferred with
  | some p => if isAvailableIn m p then [p] else []
  | none => []

/-- "At least one requested category has at least one record matching the
query or available as fallback content" (the fallback draws on the full
project/new-project, job and certificate collections). -/
def category_has_content (store : DataStore) (request : SearchRequestM) : Prop :=
  ("projects" ∈ request.include_sections ∧
    (search_projects request.query store.projects request.limit ≠ [] ∨
      store.newProjects ≠ [] ∨ store.projects ≠ [])) ∨
  ("jobs" ∈ request.include_sections ∧
    (search_jobs request.query store.jobs request.limit ≠ [] ∨
      store.jobs ≠ [])) ∨
  ("certificates" ∈ request.include_sections ∧
    (search_certificates request.query store.certificates request.limit ≠ [] ∨
      store.certificates ≠ []))

/-- A manager with Groq registered but unavailable and OpenAI/Anthropic
available and succeeding. -/
def exMgrA : LLMProviderManager :=
  ⟨fun p =>
    match p with
    | .groq => some ⟨false, fun _ => .error "groq down"⟩
    | .openai => some ⟨true, fun _ => .ok ⟨"openai answer", .openai⟩⟩
    | .anthropic => some ⟨true, fun _ => .ok ⟨"anthropic answer", .anthropic⟩⟩
    | .localProv => none⟩

/-- Like `exMgrA` but OpenAI's adapter raises. -/
def exMgrB : LLMProviderManager :=
  ⟨fun p =>
    match p with
    | .groq => some ⟨false, fun _ => .error "groq down"⟩
    | .openai => some ⟨true, fun _ => .error "openai boom"⟩
    | .anthropic => some ⟨true, fun _ => .ok ⟨"anthropic answer", .anthropic⟩⟩
    | .localProv => none⟩

/-- Like `exMgrA` but both OpenAI and Anthropic raise. -/
def exMgrC : LLMProviderManager :=
  ⟨fun p =>
    match p with
    | .groq => some ⟨false, fun _ => .error "groq down"⟩
    | .openai => some ⟨true, fun _ => .error "openai boom"⟩
    | .anthropic => some ⟨true, fun _ => .error "anthropic boom"⟩
    | .localProv => none⟩

/-- A manager with no registered providers at all. -/
def exMgrNone : LLMProviderManager := ⟨fun _ => none⟩

/-- A manager whose only provider answers with a two-character response —
too short to pass validation — to exhibit the absence of a second retry. -/
def exMgrShort : LLMProviderManager :=
  ⟨fun p =>
    match p with
    | .groq => some ⟨true, fun _ => .ok ⟨"ok", .groq⟩⟩
    | _ => none⟩

/-- A placeholder first-generation response for the validation phase. -/
def exLlmResp : LLMResponseM := ⟨"short", .groq⟩

/-- A one-project store for the search witnesses/counterexamples. -/
def exStore : DataStore :=
  ⟨⟨"Ada", "Dev", "about"⟩,
   [⟨"Alpha", "desc of Alpha", none, "Web", false, ["python"]⟩],
   [], [], []⟩

/-- A trivial prompt lookup for the search witnesses/counterexamples. -/
def exGetPrompt : String → String → String → String := fun _ _ _ => ""

/-- Matching query, offset beyond the total count. -/
def exReqOffset : SearchRequestM := ⟨"desc", 5, 10, ["projects"]⟩

/-- Matching query, offset 0. -/
def exReqOk : SearchRequestM := ⟨"desc", 5, 0, ["projects"]⟩

/- ## Helper lemmas -/

theorem containsChar_iff_mem {c : Char} {l : List Char} :
    containsChar c l = true ↔ c ∈ l := by
  induction l with
  | nil => simp [containsChar]
  | cons x xs ih =>
    simp [containsChar, ih, beq_iff_eq]
    constructor
    · rintro (h | h)
      · exact Or.inl h.symm
      · exact Or.inr h
    · rintro (h | h)
      · exact Or.inl h.symm
      · exact Or.inr h

theorem startsWithChars_iff_leading {p s : List Char} :
    startsWithChars p s = true ↔ p <+: s := by
  induction p generalizing s with
  | nil => simp [startsWithChars]
  | cons a ps ih =>
    cases s with
    | nil => simp [startsWithChars]
    | cons c cs =>
      simp [startsWithChars, Bool.and_eq_true, beq_iff_eq, ih,
        List.cons_prefix_cons]

theorem startsWithChars_compat {s a b : List Char}
    (ha : startsWithChars a s = true) (hb : startsWithChars b s = true) :
    startsWithChars a b = true ∨ startsWithChars b a = true := by
  rw [startsWithChars_iff_leading] at ha hb ⊢
  rw [startsWithChars_iff_leading (p := b) (s := a)]
  exact List.prefix_or_prefix_of_prefix ha hb

theorem containsSub_of_startsWithChars {w s : List Char}
    (h : startsWithChars w s = true) : containsSub w s = true := by
  cases s with
  | nil => simpa [containsSub] using h
  | cons c cs => simp [containsSub, h]

theorem containsChar_of_startsWithChars {p s : List Char} {c : Char}
    (hp : startsWithChars p s = true) (hc : containsChar c p = true) :
    containsChar c s = true := by
  rw [containsChar_iff_mem] at hc ⊢
  rw [startsWithChars_iff_leading] at hp
  exact hp.subset hc

theorem containsChar_reverse {c : Char} {l : List Char} :
    containsChar c l.reverse = containsChar c l := by
  by_cases h : c ∈ l
  · rw [containsChar_iff_mem.2 h, containsChar_iff_mem.2 (List.mem_reverse.2 h)]
  · have h1 : containsChar c l = false := by
      cases hh : containsChar c l
      · rfl
      · exact absurd (containsChar_iff_mem.1 hh) h
    have h2 : containsChar c l.reverse = false := by
      cases hh : containsChar c l.reverse
      · rfl
      · exact absurd (List.mem_reverse.1 (containsChar_iff_mem.1 hh)) h
    rw [h1, h2]

theorem containsChar_drop {c : Char} {l : List Char} {n : Nat}
    (h : containsChar c (l.drop n) = true) : containsChar c l = true := by
  rw [containsChar_iff_mem] at h ⊢
  exact (List.drop_suffix n l).subset h

theorem containsChar_takeWhile {c : Char} {l : List Char} {p : Char → Bool}
    (h : containsChar c (l.takeWhile p) = true) : containsChar c l = true := by
  rw [containsChar_iff_mem] at h ⊢
  exact (List.takeWhile_prefix p).subset h

theorem containsChar_of_endsWithChars {p s : List Char} {c : Char}
    (hp : endsWithChars p s = true) (hc : containsChar c p = true) :
    containsChar c s = true := by
  unfold endsWithChars at hp
  rw [← containsChar_reverse (l := s)]
  exact containsChar_of_startsWithChars hp (by rwa [containsChar_reverse])

theorem startsAnyOf_append {l1 l2 : List String} {s : List Char} :
    startsAnyOf (l1 ++ l2) s = (startsAnyOf l1 s || startsAnyOf l2 s) := by
  simp [startsAnyOf, List.any_append]

/-- No command verb shares a prefix relationship with a leading question
phrase. -/
theorem no_overlap_cmd_qphrase :
    ∀ v ∈ commandVerbs,
      ∀ w ∈ (["tell me", "explain", "describe", "can you", "could you"] :
        List String),
        startsWithChars v.toList w.toList = false ∧
          startsWithChars w.toList v.toList = false := by decide

/-- No command verb shares a prefix relationship with a leading search verb. -/
theorem no_overlap_cmd_sverb :
    ∀ v ∈ commandVerbs,
      ∀ w ∈ (["find", "search", "look for", "get", "show me", "list",
        "display"] : List String),
        startsWithChars v.toList w.toList = false ∧
          startsWithChars w.toList v.toList = false := by decide

/-- No command verb shares a prefix relationship with `filter`/`sort`. -/
theorem no_overlap_cmd_filtersort :
    ∀ v ∈ commandVerbs,
      ∀ w ∈ (["filter", "sort"] : List String),
        startsWithChars v.toList w.toList = false ∧
          startsWithChars w.toList v.toList = false := by decide

/-- No command verb shares a prefix relationship with a leading relational
search phrase. -/
theorem no_overlap_cmd_srel :
    ∀ v ∈ commandVerbs,
      ∀ w ∈ (["containing", "related to", "about", "with skill"] :
        List String),
        startsWithChars v.toList w.toList = false ∧
          startsWithChars w.toList v.toList = false := by decide

/-- C2 (amended): a message that starts with a command verb, contains no
question mark, no interrogative word, and no domain noun as a whole word is
classified `command`. -/
theorem command_classification (s : List Char)
    (hcmd : startsAnyOf commandVerbs s = true)
    (hq : containsChar '?' s = false)
    (hint : containsAnySub interrogative_words s = false)
    (hdom : sPatDomainNoun s = false) :
    determine_message_type s = .command := by
  obtain ⟨v, hvmem, hvsw⟩ :
      ∃ v, v ∈ commandVerbs ∧ startsWithChars v.toList s = true := by
    simpa [startsAnyOf, List.any_eq_true] using hcmd
  rw [containsAnySub, List.any_eq_false] at hint
  have hQ : question_patterns_match s = false := by
    rw [question_patterns_match]
    simp only [Bool.or_eq_false_iff]
    refine ⟨⟨⟨⟨?_, ?_⟩, ?_⟩, ?_⟩, ?_⟩
    · cases h : qPatInterrogative s with
      | false => rfl
      | true =>
        rw [qPatInterrogative, List.any_eq_true] at h
        obtain ⟨w, hw, hconj⟩ := h
        rw [Bool.and_eq_true] at hconj
        have hsub := containsSub_of_startsWithChars hconj.1
        exact absurd hsub (hint w (by simpa [interrogative_words] using hw))
    · cases h : qPatTrailingQm s with
      | false => rfl
      | true =>
        rw [qPatTrailingQm, Bool.or_eq_true] at h
        rcases h with h | h
        · have := containsChar_of_endsWithChars h (c := '?') (by decide)
          simp [hq] at this
        · have := containsChar_of_endsWithChars h (c := '?') (by decide)
          simp [hq] at this
    · cases h : qPatLeadingPhrase s with
      | false => rfl
      | true =>
        rw [qPatLeadingPhrase, startsAnyOf, List.any_eq_true] at h
        obtain ⟨w, hw, hsw⟩ := h
        rcases startsWithChars_compat hvsw hsw with hc | hc
        · rw [(no_overlap_cmd_qphrase v hvmem w hw).1] at hc
          exact Bool.noConfusion hc
        · rw [(no_overlap_cmd_qphrase v hvmem w hw).2] at hc
          exact Bool.noConfusion hc
    · cases h : qPatAuxQm s with
      | false => rfl
      | true =>
        rw [qPatAuxQm, List.any_eq_true] at h
        obtain ⟨w, hw, hconj⟩ := h
        simp only [Bool.and_eq_true] at hconj
        have := containsChar_drop (containsChar_takeWhile hconj.2)
        simp [hq] at this
    · cases h : qPatVerbQm s with
      | false => rfl
      | true =>
        rw [qPatVerbQm, List.any_eq_true] at h
        obtain ⟨w, hw, hconj⟩ := h
        simp only [Bool.and_eq_true] at hconj
        have := containsChar_drop (containsChar_takeWhile hconj.2)
        simp [hq] at this
  have hS : search_patterns_match s = false := by
    rw [search_patterns_match]
    simp only [Bool.or_eq_false_iff]
    refine ⟨⟨⟨?_, ?_⟩, ?_⟩, ?_⟩
    · cases h : sPatLeadingVerb s with
      | false => rfl
      | true =>
        rw [sPatLeadingVerb, startsAnyOf, List.any_eq_true] at h
        obtain ⟨w, hw, hsw⟩ := h
        rcases startsWithChars_compat hvsw hsw with hc | hc
        · rw [(no_overlap_cmd_sverb v hvmem w hw).1] at hc
          exact Bool.noConfusion hc
        · rw [(no_overlap_cmd_sverb v hvmem w hw).2] at hc
          exact Bool.noConfusion hc
    · cases h : sPatFilterSort s with
      | false => rfl
      | true =>
        rw [sPatFilterSort, List.any_eq_true] at h
        obtain ⟨w, hw, hconj⟩ := h
        rw [Bool.and_eq_true] at hconj
        rcases startsWithChars_compat hvsw hconj.1 with hc | hc
        · rw [(no_overlap_cmd_filtersort v hvmem w hw).1] at hc
          exact Bool.noConfusion hc
        · rw [(no_overlap_cmd_filtersort v hvmem w hw).2] at hc
          exact Bool.noConfusion hc
    · cases h : sPatLeadingRel s with
      | false => rfl
      | true =>
        rw [sPatLeadingRel, startsAnyOf, List.any_eq_true] at h
        obtain ⟨w, hw, hsw⟩ := h
        rcases startsWithChars_compat hvsw hsw with hc | hc
        · rw [(no_overlap_cmd_srel v hvmem w hw).1] at hc
          exact Bool.noConfusion hc
        · rw [(no_overlap_cmd_srel v hvmem w hw).2] at hc
          exact Bool.noConfusion hc
    · exact hdom
  have hsplit : commandVerbs =
      (["update", "change", "modify", "edit", "delete", "remove", "add",
        "create"] ++
        (["set", "configure", "enable", "disable"] ++
          ["start", "stop", "restart", "run", "execute"])) := by rfl
  have hC : command_patterns_match s = true := by
    have : startsAnyOf commandVerbs s = command_patterns_match s := by
      rw [hsplit, startsAnyOf_append, startsAnyOf_append,
        command_patterns_match, Bool.or_assoc]
    rw [← this, hcmd]
  simp [determine_message_type, hQ, hS, hC]

theorem providers_fold_step (m : LLMProviderManager) (acc : List LLMProviderT)
    (pt : LLMProviderT) :
    (if pt ∈ acc then acc
     else
       match m.providers pt with
       | some prov => if prov.avail then acc ++ [pt] else acc
       | none => acc) =
    (if pt ∈ acc then acc
     else if isAvailableIn m pt then acc ++ [pt] else acc) := by
  cases h : m.providers pt <;> simp [isAvailableIn, h]

theorem providers_foldl_eq (m : LLMProviderManager) :
    ∀ (pri : List LLMProviderT), pri.Nodup → ∀ acc : List LLMProviderT,
      pri.foldl
        (fun acc pt =>
          if pt ∈ acc then acc
          else
            match m.providers pt with
            | some prov => if prov.avail then acc ++ [pt] else acc
            | none => acc) acc =
      acc ++ pri.filter (fun pt => decide (pt ∉ acc) && isAvailableIn m pt)
  | [], _, acc => by simp
  | pt :: rest, h, acc => by
    rw [List.nodup_cons] at h
    rw [List.foldl_cons, providers_fold_step]
    by_cases hin : pt ∈ acc
    · rw [if_pos hin, providers_foldl_eq m rest h.2 acc, List.filter_cons]
      simp [hin]
    · rw [if_neg hin]
      by_cases hav : isAvailableIn m pt = true
      · rw [if_pos hav, providers_foldl_eq m rest h.2 (acc ++ [pt]),
          List.filter_cons]
        simp only [hin, hav, decide_not, not_false_eq_true, decide_True,
          Bool.true_and, if_pos]
        rw [List.append_assoc, List.singleton_append]
        congr 1
        congr 1
        refine List.filter_congr ?_
        intro q hq
        have hne : q ≠ pt := fun hqe => h.1 (hqe ▸ hq)
        simp [List.mem_append, hne]
      · rw [if_neg hav, providers_foldl_eq m rest h.2 acc, List.filter_cons]
        rw [if_neg (fun hc => hav ((Bool.and_eq_true _ _).mp hc).2)]

theorem providers_to_try_eq (m : LLMProviderManager)
    (preferred : Option LLMProviderT) :
    providers_to_try m preferred =
      preferred_candidates m preferred ++
        provider_priority.filter
          (fun pt => decide (pt ∉ preferred_candidates m preferred) &&
            isAvailableIn m pt) := by
  have hinit :
      (match preferred with
        | some p =>
          match m.providers p with
          | some prov => if prov.avail then [p] else []
          | none => []
        | none => []) = preferred_candidates m preferred := by
    cases preferred with
    | none => rfl
    | some p =>
      unfold preferred_candidates isAvailableIn
      cases h : m.providers p <;> simp [h]
  unfold providers_to_try
  dsimp only
  rw [hinit, providers_foldl_eq m provider_priority (by decide)]

/-- C1: `generate_response` builds the candidate list preferred-first then
by priority (skipping duplicates/unregistered/unavailable), raises when it
is empty, tries candidates strictly in order returning the first success,
and raises carrying the last recorded failure when all fail; in particular
with Groq unavailable, OpenAI and Anthropic available and no preferred
provider, it returns OpenAI's response, falls back to Anthropic's when
OpenAI raises, and fails with the last error when both raise. -/
theorem provider_manager_fallback
    (m : LLMProviderManager) (prompt : String) (po pa : ProviderSim)
    (hg : isAvailableIn m .groq = false)
    (ho : m.providers .openai = some po) (hoa : po.avail = true)
    (ha : m.providers .anthropic = some pa) (haa : pa.avail = true) :
    (∀ (m2 : LLMProviderManager) (p2 : String) (pref : Option LLMProviderT),
        providers_to_try m2 pref = [] →
          generate_response m2 p2 pref = .error .noProvidersAvailable) ∧
    (∀ (m2 : LLMProviderManager) (pref : Option LLMProviderT),
        providers_to_try m2 pref =
          preferred_candidates m2 pref ++
            provider_priority.filter
              (fun pt => decide (pt ∉ preferred_candidates m2 pref) &&
                isAvailableIn m2 pt)) ∧
    providers_to_try m none = [.openai, .anthropic] ∧
    (∀ r, po.gen prompt = .ok r →
        generate_response m prompt none = .ok r) ∧
    (∀ e r, po.gen prompt = .error e → pa.gen prompt = .ok r →
        generate_response m prompt none = .ok r) ∧
    (∀ e e2, po.gen prompt = .error e → pa.gen prompt = .error e2 →
        generate_response m prompt none =
          .error (.allProvidersFailed (some e2))) := by
  have hAvO : isAvailableIn m .openai = true := by
    unfold isAvailableIn
    rw [ho]
    exact hoa
  have hAvA : isAvailableIn m .anthropic = true := by
    unfold isAvailableIn
    rw [ha]
    exact haa
  have hpts : providers_to_try m none = [.openai, .anthropic] := by
    rw [providers_to_try_eq]
    simp [preferred_candidates, provider_priority, List.filter_cons, hg, hAvO,
      hAvA]
  refine ⟨?_, ?_, hpts, ?_, ?_, ?_⟩
  · intro m2 p2 pref hempty
    unfold generate_response
    rw [hempty]
    rfl
  · intro m2 pref
    exact providers_to_try_eq m2 pref
  · intro r hr
    unfold generate_response
    rw [hpts]
    simp [try_providers, ho, hr]
  · intro e r he hr
    unfold generate_response
    rw [hpts]
    simp [try_providers, ho, he, ha, hr]
  · intro e e2 he he2
    unfold generate_response
    rw [hpts]
    simp [try_providers, ho, he, ha, he2]

/-- Witness for C1: the three fallback scenarios and the empty-registry
error at concrete managers. -/
theorem provider_manager_fallback_witness :
    generate_response exMgrA "p" none = .ok ⟨"openai answer", .openai⟩ ∧
    generate_response exMgrB "p" none = .ok ⟨"anthropic answer", .anthropic⟩ ∧
    generate_response exMgrC "p" none =
      .error (.allProvidersFailed (some "anthropic boom")) ∧
    generate_response exMgrNone "p" none = .error .noProvidersAvailable :=
  ⟨(provider_manager_fallback exMgrA "p" _ _ rfl rfl rfl rfl rfl).2.2.2.1 _ rfl,
   (provider_manager_fallback exMgrB "p" _ _ rfl rfl rfl rfl rfl).2.2.2.2.1
     _ _ rfl rfl,
   (provider_manager_fallback exMgrC "p" _ _ rfl rfl rfl rfl rfl).2.2.2.2.2
     _ _ rfl rfl,
   (provider_manager_fallback exMgrA "p" _ _ rfl rfl rfl rfl rfl).1
     exMgrNone "p" none rfl⟩

/-- Counterexample to C2 as stated: "update the project" starts with the
command verb `update`, contains no question mark and no interrogative word,
yet the domain-noun search pattern fires first and the classifier answers
`search_request`, not `command`. -/
theorem command_classification_counterexample :
    startsAnyOf commandVerbs "update the project".toList = true ∧
    containsChar '?' "update the project".toList = false ∧
    containsAnySub interrogative_words "update the project".toList = false ∧
    determine_message_type "update the project".toList =
      MessageType.search_request ∧
    determine_message_type "update the project".toList ≠ MessageType.command :=
  by decide

/-- Witness for the amended C2 at a concrete command message. -/
theorem command_classification_witness :
    startsAnyOf commandVerbs "delete everything now".toList = true ∧
    determine_message_type "delete everything now".toList =
      MessageType.command :=
  ⟨by decide,
   command_classification "delete everything now".toList (by decide)
     (by decide) (by decide) (by decide)⟩

/-- C3 (amended): a message that ends with a question mark is classified
`question` — in particular one that also contains a domain noun resolves to
`question`, not `search_request`, since question patterns are checked first.
(The question-mark pattern is anchored at the end: `\?$`.) -/
theorem question_mark_classification (s : List Char)
    (hdom : sPatDomainNoun s = true) (hq : endsWithChars ['?'] s = true) :
    determine_message_type s = MessageType.question := by
  have hmatch : question_patterns_match s = true := by
    rw [question_patterns_match, qPatTrailingQm, hq]
    simp
  simp [determine_message_type, hmatch]

/-- Counterexample to C3 as stated: "project? ok" contains both a question
mark and a domain noun, yet is classified `search_request` because the
question patterns only recognise a question mark at the end of the message. -/
theorem question_mark_classification_counterexample :
    containsChar '?' "project? ok".toList = true ∧
    sPatDomainNoun "project? ok".toList = true ∧
    determine_message_type "project? ok".toList =
      MessageType.search_request ∧
    determine_message_type "project? ok".toList ≠ MessageType.question :=
  by decide

/-- Witness for the amended C3 at a concrete message. -/
theorem question_mark_classification_witness :
    sPatDomainNoun "any project?".toList = true ∧
    determine_message_type "any project?".toList = MessageType.question :=
  ⟨by decide,
   question_mark_classification "any project?".toList (by decide) (by decide)⟩

/-- C8: a message whose trimmed, lowercased text ends with a question mark
scores at least 0.8: base 0.5 plus the 0.3 question-mark bonus, with all
remaining rules adding non-negative amounts before the clamp at 1.0. -/
theorem question_confidence_ge (message : String) (t1 t2 : ℚ)
    (h : endsWithChars ['?'] (pyStrip (pyLower message.toList)) = true) :
    0.8 ≤ (classify_message message t1 t2).confidence := by
  have heq : (classify_message message t1 t2).confidence =
      calculate_confidence (pyStrip (pyLower message.toList))
        (determine_message_type (pyStrip (pyLower message.toList)))
        (extract_keywords message.toList) := rfl
  rw [heq]
  unfold calculate_confidence
  dsimp only
  rw [h]
  have hk : (0 : ℚ) ≤
      min (((extract_keywords message.toList).length : ℚ) * 0.1) 0.3 :=
    le_min (by positivity) (by norm_num)
  simp only [if_true]
  split_ifs <;> exact le_min (by linarith) (by norm_num)

/-- Witness for C8 at the message "what?". -/
theorem question_confidence_ge_witness :
    endsWithChars ['?'] (pyStrip (pyLower "what?".toList)) = true ∧
    0.8 ≤ (classify_message "what?" 0 0).confidence :=
  ⟨by decide, question_confidence_ge "what?" 0 0 (by decide)⟩

/-- C10: every classification confidence lies in [0.5, 1.0]: the score
starts at 0.5, every rule adds a non-negative bonus, and the result is
clamped above at 1.0. -/
theorem confidence_bounds (message : String) (t1 t2 : ℚ) :
    0.5 ≤ (classify_message message t1 t2).confidence ∧
      (classify_message message t1 t2).confidence ≤ 1.0 := by
  have heq : (classify_message message t1 t2).confidence =
      calculate_confidence (pyStrip (pyLower message.toList))
        (determine_message_type (pyStrip (pyLower message.toList)))
        (extract_keywords message.toList) := rfl
  rw [heq]
  unfold calculate_confidence
  dsimp only
  have hk : (0 : ℚ) ≤
      min (((extract_keywords message.toList).length : ℚ) * 0.1) 0.3 :=
    le_min (by positivity) (by norm_num)
  constructor
  · split_ifs <;> exact le_min (by linarith) (by norm_num)
  · split_ifs <;> exact min_le_right _ _

/-- C9: the classifier is a total pure function of the message text — the
wall-clock inputs influence only `processing_time`, so `message_type`,
`intent`, `keywords` and `entities` agree across any two invocations; the
empty string is accepted and classified `conversation`. -/
theorem classifier_deterministic (message : String) (t1 t2 t1' t2' : ℚ) :
    ((classify_message message t1 t2).message_type =
        (classify_message message t1' t2').message_type ∧
      (classify_message message t1 t2).intent =
        (classify_message message t1' t2').intent ∧
      (classify_message message t1 t2).keywords =
        (classify_message message t1' t2').keywords ∧
      (classify_message message t1 t2).entities =
        (classify_message message t1' t2').entities) ∧
    (classify_message "" t1 t2).message_type = MessageType.conversation :=
  ⟨⟨rfl, rfl, rfl, rfl⟩, rfl⟩

/-- C6: a response is valid iff its trimmed length exceeds 10 and it is not
all whitespace; a valid response passes through with no manager call, and an
invalid one triggers exactly one regeneration with the generic fallback
prompt whose result — of whatever quality — is final (no further retry). -/
theorem validation_phase_spec (m : LLMProviderManager) (response : String)
    (lr : LLMResponseM) :
    ((decide (10 < (pyStrip response.toList).length) &&
        !(pyIsSpace response.toList)) = true ↔
      (10 < (pyStrip response.toList).length ∧
        pyIsSpace response.toList = false)) ∧
    ((decide (10 < (pyStrip response.toList).length) &&
        !(pyIsSpace response.toList)) = true →
      phase_validation m response lr = (.ok ⟨response, lr, true⟩, [])) ∧
    ((decide (10 < (pyStrip response.toList).length) &&
        !(pyIsSpace response.toList)) = false →
      (phase_validation m response lr).2 = [validation_fallback_prompt] ∧
      (∀ r, generate_response m validation_fallback_prompt none = .ok r →
        (phase_validation m response lr).1 = .ok ⟨r.response, r, false⟩) ∧
      (∀ e, generate_response m validation_fallback_prompt none = .error e →
        (phase_validation m response lr).1 = .error e)) := by
  have hcrit : ((decide (10 < (pyStrip response.toList).length) &&
      !(pyIsSpace response.toList)) = true ↔
      (10 < (pyStrip response.toList).length ∧
        pyIsSpace response.toList = false)) := by
    simp [Bool.and_eq_true, decide_eq_true_eq, Bool.not_eq_true']
  refine ⟨hcrit, ?_, ?_⟩
  · intro hv
    unfold phase_validation
    dsimp only
    rw [if_pos hv, hv]
  · intro hv
    have hneg : ¬((decide (10 < (pyStrip response.toList).length) &&
        !(pyIsSpace response.toList)) = true) := by
      rw [hv]
      simp
    refine ⟨?_, ?_, ?_⟩
    · unfold phase_validation
      dsimp only
      rw [if_neg hneg]
      cases hgen : generate_response m validation_fallback_prompt none <;>
        simp [hgen]
    · intro r hr
      unfold phase_validation
      dsimp only
      rw [if_neg hneg, hr]
      dsimp only
      rw [hv]
    · intro e he
      unfold phase_validation
      dsimp only
      rw [if_neg hneg, he]

/-- Witness for C6: the short response "hi" is regenerated once through the
manager whose answer "ok" is itself too short, yet is accepted without a
second retry; a long response passes through untouched. -/
theorem validation_phase_spec_witness :
    (phase_validation exMgrShort "hi" exLlmResp).1 =
      .ok ⟨"ok", ⟨"ok", .groq⟩, false⟩ ∧
    (phase_validation exMgrShort "hi" exLlmResp).2 =
      [validation_fallback_prompt] ∧
    phase_validation exMgrShort "a sufficiently long response" exLlmResp =
      (.ok ⟨"a sufficiently long response", exLlmResp, true⟩, []) :=
  ⟨((validation_phase_spec exMgrShort "hi" exLlmResp).2.2 (by decide)).2.1
      ⟨"ok", .groq⟩ rfl,
   ((validation_phase_spec exMgrShort "hi" exLlmResp).2.2 (by decide)).1,
   (validation_phase_spec exMgrShort "a sufficiently long response"
      exLlmResp).2.1 (by decide)⟩

theorem take_min_length {α : Type} (l : List α) (n : Nat) :
    l.take (min l.length n) = l.take n := by
  rcases le_total l.length n with h | h
  · rw [min_eq_left h, List.take_length, List.take_of_length_le h]
  · rw [min_eq_right h]

theorem take_ne_nil {α : Type} {l : List α} {n : Nat} (hn : 1 ≤ n)
    (hl : l ≠ []) : l.take n ≠ [] := by
  cases l with
  | nil => exact absurd rfl hl
  | cons x xs =>
    cases n with
    | zero => omega
    | succ k => simp

theorem mem_insertByLe {α : Type} {le : α → α → Bool} {x y : α} {l : List α} :
    y ∈ insertByLe le x l ↔ y = x ∨ y ∈ l := by
  induction l with
  | nil => simp [insertByLe]
  | cons z zs ih =>
    rw [insertByLe]
    split_ifs with h
    · simp [or_comm, or_assoc, or_left_comm]
    · simp [ih]
      tauto

theorem mem_sortByLe {α : Type} {le : α → α → Bool} {y : α} {l : List α} :
    y ∈ sortByLe le l ↔ y ∈ l := by
  induction l with
  | nil => simp [sortByLe]
  | cons z zs ih =>
    rw [sortByLe, mem_insertByLe, ih]
    simp

theorem sortByLe_length {α : Type} (le : α → α → Bool) (l : List α) :
    (sortByLe le l).length = l.length := by
  have hins : ∀ (x : α) (t : List α),
      (insertByLe le x t).length = t.length + 1 := by
    intro x t
    induction t with
    | nil => rfl
    | cons z zs ih =>
      rw [insertByLe]
      split_ifs with h
      · rfl
      · simp [ih]
  induction l with
  | nil => rfl
  | cons z zs ih =>
    rw [sortByLe, hins, ih]
    rfl

theorem foldl_append_join {α β : Type} (f : α → List β) :
    ∀ (l : List α) (acc : List β),
      l.foldl (fun a x => a ++ f x) acc = acc ++ (l.map f).join
  | [], acc => by simp
  | x :: xs, acc => by
    rw [List.foldl_cons, foldl_append_join f xs (acc ++ f x)]
    simp

theorem flatten_eq_join (sections : List SearchSectionM) :
    flatten_sections_to_items sections =
      (sections.map (fun sec =>
        sec.items.map (fun item => SearchResultItemM.mk sec.type item))).join := by
  rw [flatten_sections_to_items, foldl_append_join]
  rfl

theorem flatten_ne_nil {sections : List SearchSectionM} {sec : SearchSectionM}
    (hmem : sec ∈ sections) (hitems : sec.items ≠ []) :
    flatten_sections_to_items sections ≠ [] := by
  rw [flatten_eq_join]
  intro hnil
  rw [List.join_eq_nil] at hnil
  have := hnil (sec.items.map (fun item => SearchResultItemM.mk sec.type item))
    (List.mem_map_of_mem _ hmem)
  simp [List.map_eq_nil] at this
  exact hitems this

theorem filter_pos_neg_ne_nil {α : Type} {l : List α} (p : α → Bool)
    (hl : l ≠ []) : l.filter p ++ l.filter (fun x => !p x) ≠ [] := by
  cases l with
  | nil => exact absurd rfl hl
  | cons x xs =>
    intro hnil
    rw [List.append_eq_nil] at hnil
    cases hx : p x with
    | true =>
      have : x ∈ List.filter p (x :: xs) := List.mem_filter.2 ⟨List.mem_cons_self x xs, hx⟩
      rw [hnil.1] at this
      exact List.not_mem_nil x this
    | false =>
      have : x ∈ List.filter (fun x => !p x) (x :: xs) :=
        List.mem_filter.2 ⟨List.mem_cons_self x xs, by simp [hx]⟩
      rw [hnil.2] at this
      exact List.not_mem_nil x this

theorem isEmpty_false_of_ne_nil {α : Type} {l : List α} (h : l ≠ []) :
    l.isEmpty = false := by
  cases l with
  | nil => exact absurd rfl h
  | cons _ _ => rfl

theorem fallback_projects_has_items (store : DataStore) {psl : Nat}
    (hpsl : 1 ≤ psl)
    (hdata : store.newProjects ≠ [] ∨ store.projects ≠ []) :
    ∃ sec ∈ fallback_projects_sections store psl, sec.items ≠ [] := by
  have hproj : (if store.newProjects.isEmpty then store.projects
      else store.newProjects) ≠ [] := by
    cases hnew : store.newProjects.isEmpty with
    | true =>
      simp only [hnew, if_true]
      rcases hdata with h | h
      · exact absurd (List.isEmpty_iff.1 hnew) h
      · exact h
    | false =>
      simp only [hnew, Bool.false_eq_true, if_false]
      intro hc
      rw [hc] at hnew
      exact Bool.noConfusion hnew
  have hsort : sortByLe projFallbackLe
      (if store.newProjects.isEmpty then store.projects
        else store.newProjects) ≠ [] := by
    intro hnil
    have hlen := sortByLe_length projFallbackLe
      (if store.newProjects.isEmpty then store.projects else store.newProjects)
    rw [hnil] at hlen
    exact hproj (List.length_eq_zero.1 hlen.symm)
  have hmapne : (((sortByLe projFallbackLe
      (if store.newProjects.isEmpty then store.projects
        else store.newProjects)).take psl).map RecordData.proj) ≠ [] := by
    simpa [List.map_eq_nil] using take_ne_nil hpsl hsort
  unfold fallback_projects_sections
  dsimp only
  simp only [isEmpty_false_of_ne_nil hproj, Bool.false_eq_true, if_false]
  simp only [isEmpty_false_of_ne_nil hmapne, Bool.not_false, if_true]
  exact ⟨_, List.mem_singleton_self _, hmapne⟩

theorem fallback_jobs_has_items (store : DataStore) {psl : Nat}
    (hpsl : 1 ≤ psl) (hdata : store.jobs ≠ []) :
    ∃ sec ∈ fallback_jobs_sections store psl, sec.items ≠ [] := by
  unfold fallback_jobs_sections
  dsimp only
  rw [if_pos (by simpa [List.isEmpty_iff] using hdata)]
  have hseq := filter_pos_neg_ne_nil (fun job => job.isCurrent) hdata
  have htake := take_ne_nil hpsl hseq
  have hmapne : ((store.jobs.filter (fun job => job.isCurrent) ++
      store.jobs.filter (fun job => !job.isCurrent)).take psl).map
        RecordData.job ≠ [] := by
    simpa [List.map_eq_nil] using htake
  rw [if_pos (by simpa [List.isEmpty_iff] using hmapne)]
  exact ⟨_, List.mem_singleton_self _, hmapne⟩

theorem fallback_certificates_has_items (store : DataStore) {psl : Nat}
    (hpsl : 1 ≤ psl) (hdata : store.certificates ≠ []) :
    ∃ sec ∈ fallback_certificates_sections store psl, sec.items ≠ [] := by
  unfold fallback_certificates_sections
  dsimp only
  have htake := take_ne_nil hpsl hdata
  have hmapne : ((store.certificates.take psl).map RecordData.cert) ≠ [] := by
    simpa [List.map_eq_nil] using htake
  rw [if_pos (by simpa [List.isEmpty_iff] using hmapne)]
  exact ⟨_, List.mem_singleton_self _, hmapne⟩

theorem semantic_sections_nonempty (store : DataStore) (request : SearchRequestM)
    (hl : 1 ≤ request.limit) (hcat : category_has_content store request) :
    flatten_sections_to_items (semantic_sections store request).1 ≠ [] := by
  have hpsl : 1 ≤ max 1 (min 3 (max 1 request.limit)) := le_max_left _ _
  have hfb : ∃ sec ∈ build_fallback_sections store request.include_sections
      (min 3 (max 1 request.limit)), sec.items ≠ [] := by
    unfold build_fallback_sections
    dsimp only
    rcases hcat with ⟨hin, hdata⟩ | ⟨hin, hdata⟩ | ⟨hin, hdata⟩ <;>
      have hincne : request.include_sections ≠ [] := List.ne_nil_of_mem hin <;>
      simp only [isEmpty_false_of_ne_nil hincne, Bool.false_eq_true, if_false]
    · have hdata' : store.newProjects ≠ [] ∨ store.projects ≠ [] := by
        rcases hdata with h | h | h
        · right
          intro hc
          apply h
          unfold search_projects
          rw [hc]
          simp
        · left; exact h
        · right; exact h
      obtain ⟨sec, hmem, hitems⟩ := fallback_projects_has_items store hpsl hdata'
      refine ⟨sec, ?_, hitems⟩
      rw [if_pos hin]
      exact List.mem_append_left _ (List.mem_append_left _ hmem)
    · have hdata' : store.jobs ≠ [] := by
        rcases hdata with h | h
        · intro hc
          apply h
          unfold search_jobs
          rw [hc]
          simp
        · exact h
      obtain ⟨sec, hmem, hitems⟩ := fallback_jobs_has_items store hpsl hdata'
      refine ⟨sec, ?_, hitems⟩
      rw [if_pos hin]
      exact List.mem_append_left _ (List.mem_append_right _ hmem)
    · have hdata' : store.certificates ≠ [] := by
        rcases hdata with h | h
        · intro hc
          apply h
          unfold search_certificates
          rw [hc]
          simp
        · exact h
      obtain ⟨sec, hmem, hitems⟩ :=
        fallback_certificates_has_items store hpsl hdata'
      refine ⟨sec, ?_, hitems⟩
      rw [if_pos hin]
      exact List.mem_append_right _ hmem
  have hfbne : build_fallback_sections store request.include_sections
      (min 3 (max 1 request.limit)) ≠ [] := by
    obtain ⟨sec, hmem, _⟩ := hfb
    exact List.ne_nil_of_mem hmem
  unfold semantic_sections
  dsimp only
  set U := (unified_search store request.query request.include_sections
    request.limit).sections with hU
  set PO := if request.include_sections.isEmpty then
      ["projects", "jobs", "certificates"]
    else request.include_sections with hPO
  set O := if U.isEmpty then [] else sortByLe (section_priority_le PO) U with hO
  set FB := build_fallback_sections store request.include_sections
    (min 3 (max 1 request.limit)) with hFB
  by_cases hz : (flatten_sections_to_items O).length = 0
  · rw [if_pos hz]
    have hfbe : (!FB.isEmpty) = true := by
      rw [isEmpty_false_of_ne_nil hfbne]
      rfl
    rw [if_pos hfbe]
    obtain ⟨sec, hmem, hitems⟩ := hfb
    exact flatten_ne_nil (mem_sortByLe.2 hmem) hitems
  · rw [if_neg hz]
    intro hnil
    exact hz (by rw [hnil]; rfl)

/-- C4 (amended): when at least one requested category has a matching record
or fallback content, the total count is at least 1, and the paginated items
are nonempty provided the requested offset lies below the total count (an
offset at or past the total count yields an empty page even then). -/
theorem search_nonempty (store : DataStore) (m : LLMProviderManager)
    (get_prompt : String → String → String → String) (request : SearchRequestM)
    (hl : 1 ≤ request.limit) (hcat : category_has_content store request) :
    1 ≤ (semantic_search store m get_prompt request).total_count ∧
    (request.offset < (semantic_search store m get_prompt request).total_count →
      (semantic_search store m get_prompt request).items ≠ []) := by
  have hne := semantic_sections_nonempty store request hl hcat
  have hlen : 1 ≤
      (flatten_sections_to_items (semantic_sections store request).1).length :=
    List.length_pos.mpr hne
  unfold semantic_search
  dsimp only
  refine ⟨hlen, ?_⟩
  intro hoff
  have hso : min request.offset
      (flatten_sections_to_items (semantic_sections store request).1).length =
      request.offset := min_eq_left (le_of_lt hoff)
  rw [hso]
  apply take_ne_nil
  · have : request.offset + 1 ≤
        (flatten_sections_to_items (semantic_sections store request).1).length :=
      hoff
    omega
  · intro hdropnil
    have := List.length_drop request.offset
      (flatten_sections_to_items (semantic_sections store request).1)
    rw [hdropnil] at this
    simp at this
    omega

/-- Counterexample to C4 as stated: the requested `projects` category has a
record matching the query "desc", yet with offset 10 (beyond the total count
of 1) the returned items list is empty. -/
theorem search_nonempty_counterexample :
    category_has_content exStore exReqOffset ∧
    (semantic_search exStore exMgrNone exGetPrompt exReqOffset).items = [] :=
  ⟨by unfold category_has_content; decide, by decide⟩

/-- Witness for the amended C4: same store and query at offset 0 yield a
nonempty items list. -/
theorem search_nonempty_witness :
    1 ≤ (semantic_search exStore exMgrNone exGetPrompt exReqOk).total_count ∧
    (semantic_search exStore exMgrNone exGetPrompt exReqOk).items ≠ [] :=
  ⟨(search_nonempty exStore exMgrNone exGetPrompt exReqOk (by decide)
      (by unfold category_has_content; decide)).1,
   (search_nonempty exStore exMgrNone exGetPrompt exReqOk (by decide)
      (by unfold category_has_content; decide)).2 (by decide)⟩

/-- C5: for requests within the schema bounds, the effective offset is the
requested offset clamped into [0, total_count], the returned items are the
slice [offset, offset+limit) of the flattened (possibly fallback) list, and
`has_more` holds iff `offset + limit < total_count`. -/
theorem search_pagination_spec (store : DataStore) (m : LLMProviderManager)
    (get_prompt : String → String → String → String) (request : SearchRequestM)
    (hl1 : 1 ≤ request.limit) (hl2 : request.limit ≤ 100) :
    (semantic_search store m get_prompt request).pagination.offset =
      min request.offset
        (semantic_search store m get_prompt request).total_count ∧
    (semantic_search store m get_prompt request).pagination.offset ≤
      (semantic_search store m get_prompt request).total_count ∧
    (semantic_search store m get_prompt request).items =
      ((flatten_sections_to_items
          (semantic_search store m get_prompt request).sections).drop
        (semantic_search store m get_prompt request).pagination.offset).take
          request.limit ∧
    ((semantic_search store m get_prompt request).pagination.has_more = true ↔
      request.offset + request.limit <
        (semantic_search store m get_prompt request).total_count) := by
  unfold semantic_search
  dsimp only
  refine ⟨rfl, min_le_right _ _, ?_, ?_⟩
  · have harith : min
        (flatten_sections_to_items (semantic_sections store request).1).length
        (min request.offset
          (flatten_sections_to_items (semantic_sections store request).1).length +
          request.limit) -
        min request.offset
          (flatten_sections_to_items (semantic_sections store request).1).length =
        min ((flatten_sections_to_items
            (semantic_sections store request).1).drop
          (min request.offset
            (flatten_sections_to_items
              (semantic_sections store request).1).length)).length
          request.limit := by
      rw [List.length_drop]
      omega
    rw [harith, take_min_length]
  · simp only [decide_eq_true_eq]
    omega

/-- Witness for C5 at a concrete request within the schema bounds. -/
theorem search_pagination_spec_witness :
    1 ≤ exReqOk.limit ∧ exReqOk.limit ≤ 100 ∧
    ((semantic_search exStore exMgrNone exGetPrompt exReqOk).pagination.has_more =
        true ↔
      exReqOk.offset + exReqOk.limit <
        (semantic_search exStore exMgrNone exGetPrompt exReqOk).total_count) :=
  ⟨by decide, by decide,
   (search_pagination_spec exStore exMgrNone exGetPrompt exReqOk (by decide)
      (by decide)).2.2.2⟩

/-- C7: every search result resolves to exactly one answer form — a summary
object (navigation queries) or a free-text answer (information queries),
never both. -/
theorem search_answer_exclusivity (store : DataStore) (m : LLMProviderManager)
    (get_prompt : String → String → String → String)
    (request : SearchRequestM) :
    ((semantic_search store m get_prompt request).search_type = "navigation" ↔
      is_navigation_query request.query
        (classify_message request.query 0 0) = true) ∧
    ((semantic_search store m get_prompt request).search_type = "navigation" ∨
      (semantic_search store m get_prompt request).search_type =
        "information") ∧
    ((semantic_search store m get_prompt request).summary.isSome = true ↔
      (semantic_search store m get_prompt request).search_type =
        "navigation") ∧
    ((semantic_search store m get_prompt request).llm_response.isSome = true ↔
      (semantic_search store m get_prompt request).search_type =
        "information") ∧
    ¬((semantic_search store m get_prompt request).summary.isSome = true ∧
      (semantic_search store m get_prompt request).llm_response.isSome =
        true) := by
  cases hnav : is_navigation_query request.query
      (classify_message request.query 0 0) with
  | true =>
    refine ⟨?_, ?_, ?_, ?_, ?_⟩ <;> simp [semantic_search, hnav]
  | false =>
    refine ⟨?_, ?_, ?_, ?_, ?_⟩ <;> simp [semantic_search, hnav]
